import Mathlib

/-
Verification of the sensibo-ac-controller core against its specification.

Part 1 - Hotkey Decoder, embedded from src/src/keyboard-listener.ts.
The decoder is the class KeyboardListener: mutable fields ctrlPressed,
altPressed, temperatureBuffer, lastKeyTime become a DecoderState record;
handleKeyDown / handleKeyUp become pure state-transition functions.
Timestamps (Date.now()) are injected as an Int parameter of each DOWN
event.  Key names are strings; the source uppercases every incoming name
with String.prototype.toUpperCase, modelled for ASCII by mapping
Char.toUpper over the characters.
-/

namespace Sensibo

/-- The decoder's output alphabet: the events emitted by KeyboardListener
(src/src/keyboard-listener.ts lines 5-10): setTemperature (with payload),
voiceStatus, powerOn, powerOff. -/
inductive Command where
  | voiceStatus : Command
  | powerOn : Command
  | powerOff : Command
  | setTemperature : Nat → Command
deriving DecidableEq, Repr

/-- Decoder state: the four mutable fields of KeyboardListener
(keyboard-listener.ts lines 15-18).  The temperature buffer holds the
captured digit characters in arrival order. -/
structure DecoderState where
  ctrlPressed : Bool
  altPressed : Bool
  temperatureBuffer : List Char
  lastKeyTime : Int
deriving DecidableEq, Repr

/-- Initial state: ctrlPressed = false, altPressed = false, empty buffer,
lastKeyTime = 0 (field initializers, keyboard-listener.ts lines 15-18). -/
def initState : DecoderState := ⟨false, false, [], 0⟩

/-- JS String.prototype.toUpperCase restricted to ASCII: uppercase every
character (keyboard-listener.ts lines 41 and 104). -/
def upperStr (s : String) : String := ⟨s.data.map Char.toUpper⟩

/-- key === "LEFT CTRL" || key === "RIGHT CTRL" (lines 45, 107). -/
def isCtrlKey (key : String) : Bool := key = "LEFT CTRL" || key = "RIGHT CTRL"

/-- key === "LEFT ALT" || key === "RIGHT ALT" (lines 48, 115). -/
def isAltKey (key : String) : Bool := key = "LEFT ALT" || key = "RIGHT ALT"

/-- The regex match key.match(/^NUMPAD (\d)$/) (line 78): succeeds exactly
on the eight-character strings "NUMPAD 0" .. "NUMPAD 9", returning the
captured digit character. -/
def numpadDigit? (key : String) : Option Char :=
  match key.data with
  | ['N', 'U', 'M', 'P', 'A', 'D', ' ', c] => if c.isDigit then some c else none
  | _ => none

/-- Numeric value of an ASCII digit character. -/
def digitVal (c : Char) : Nat := c.toNat - 48

/-- parseInt(buffer.join(""), 10) on a buffer of digit characters
(line 94): base-10 value of the digit string in arrival order. -/
def parseDigits (cs : List Char) : Nat :=
  cs.foldl (fun a c => 10 * a + digitVal c) 0

/-- The modifier-tracking block of handleKeyDown (keyboard-listener.ts
lines 44-50): a DOWN of a Ctrl key sets ctrlPressed, a DOWN of an Alt
key sets altPressed, and the event then falls through to the remaining
checks. -/
def modDown (s : DecoderState) (key : String) : DecoderState :=
  let s1 := if isCtrlKey key then { s with ctrlPressed := true } else s
  if isAltKey key then { s1 with altPressed := true } else s1

/-- handleKeyDown (keyboard-listener.ts lines 39-101).  Returns the new
state and the emitted command, if any.  The source mutates this.* and
uses early returns; here each branch returns the final state.  The
modifier updates (lines 44-50) happen before the hotkey checks, exactly
as in the source. -/
def handleKeyDown (s : DecoderState) (keyName : String) (currentTime : Int) :
    DecoderState × Option Command :=
  let key := upperStr keyName
  let s2 := modDown s key
  if s2.ctrlPressed && !s2.altPressed && (key = "NUMPAD DOT" || key = "NUMPAD DELETE") then
    ({ s2 with temperatureBuffer := [] }, some Command.voiceStatus)
  else if s2.ctrlPressed && s2.altPressed && key = "NUMPAD 1" then
    ({ s2 with temperatureBuffer := [] }, some Command.powerOn)
  else if s2.ctrlPressed && s2.altPressed && key = "NUMPAD 0" then
    ({ s2 with temperatureBuffer := [] }, some Command.powerOff)
  else if s2.ctrlPressed && !s2.altPressed then
    match numpadDigit? key with
    | some d =>
      let buf0 := if currentTime - s2.lastKeyTime > 1000 then [] else s2.temperatureBuffer
      let buf := buf0 ++ [d]
      if buf.length = 2 then
        ({ s2 with temperatureBuffer := [], lastKeyTime := currentTime },
          some (Command.setTemperature (parseDigits buf)))
      else
        ({ s2 with temperatureBuffer := buf, lastKeyTime := currentTime }, none)
    | none => (s2, none)
  else (s2, none)

/-- handleKeyUp (keyboard-listener.ts lines 103-118): releasing Ctrl
clears the flag and (when non-empty) the temperature buffer; releasing
Alt clears only the Alt flag. -/
def handleKeyUp (s : DecoderState) (keyName : String) : DecoderState :=
  let key := upperStr keyName
  let s1 :=
    if isCtrlKey key then
      { s with ctrlPressed := false,
               temperatureBuffer :=
                 if s.temperatureBuffer.length > 0 then [] else s.temperatureBuffer }
    else s
  if isAltKey key then { s1 with altPressed := false } else s1

/-- One raw event from the global listener (keyboard-listener.ts
lines 29-36): a DOWN with the key name and the Date.now() timestamp, or
an UP with the key name. -/
inductive RawEvent where
  | down : String → Int → RawEvent
  | up : String → RawEvent
deriving DecidableEq, Repr

/-- One dispatch of the listener callback (lines 31-35). -/
def stepD (s : DecoderState) : RawEvent → DecoderState × Option Command
  | RawEvent.down k t => handleKeyDown s k t
  | RawEvent.up k => (handleKeyUp s k, none)

/-- Run the decoder over a whole raw event stream, collecting emitted
commands in order. -/
def runD (s : DecoderState) : List RawEvent → DecoderState × List Command
  | [] => (s, [])
  | e :: es =>
    let r1 := stepD s e
    let r2 := runD r1.1 es
    (r2.1, r1.2.toList ++ r2.2)

/-- Invariant of the digit buffer: it never holds more than one digit
between events (a second digit is flushed within the same event). -/
def BufInv (s : DecoderState) : Prop := s.temperatureBuffer.length ≤ 1

/-- The ten numpad digit key names with their captured digit character. -/
def npDigits : List (String × Char) :=
  [("NUMPAD 0", '0'), ("NUMPAD 1", '1'), ("NUMPAD 2", '2'), ("NUMPAD 3", '3'),
   ("NUMPAD 4", '4'), ("NUMPAD 5", '5'), ("NUMPAD 6", '6'), ("NUMPAD 7", '7'),
   ("NUMPAD 8", '8'), ("NUMPAD 9", '9')]

/-- modDown never touches the digit buffer. -/
lemma modDown_buffer (s : DecoderState) (key : String) :
    (modDown s key).temperatureBuffer = s.temperatureBuffer := by
  simp only [modDown]
  split <;> split <;> rfl

/-- modDown never touches the last-key timestamp. -/
lemma modDown_time (s : DecoderState) (key : String) :
    (modDown s key).lastKeyTime = s.lastKeyTime := by
  simp only [modDown]
  split <;> split <;> rfl

/-- For a non-modifier key, modDown is the identity. -/
lemma modDown_other (s : DecoderState) (key : String)
    (hcu : isCtrlKey key = false) (hau : isAltKey key = false) :
    modDown s key = s := by
  simp [modDown, hcu, hau]

/-- A successful numpad-digit match pins down the shape of the key name. -/
lemma numpad_shape (u : String) (c : Char) (hnp : numpadDigit? u = some c) :
    u.data = ['N', 'U', 'M', 'P', 'A', 'D', ' ', c] ∧ c.isDigit = true := by
  unfold numpadDigit? at hnp
  split at hnp
  · rename_i c2 heq
    split at hnp
    · rename_i hdig
      cases hnp
      exact ⟨heq, hdig⟩
    · cases hnp
  · cases hnp

/-- A numpad digit key is not a modifier key and not a hotkey trigger. -/
lemma numpad_not_mod (u : String) (c : Char) (hnp : numpadDigit? u = some c) :
    isCtrlKey u = false ∧ isAltKey u = false ∧
    u ≠ "NUMPAD DOT" ∧ u ≠ "NUMPAD DELETE" := by
  obtain ⟨heq, -⟩ := numpad_shape u c hnp
  have hlen : ∀ w : String, w.data.length ≠ 8 → u ≠ w := by
    intro w hw h
    apply hw
    rw [← h, heq]
    rfl
  have hla : u ≠ "LEFT ALT" := by
    intro h
    rw [h, show ("LEFT ALT" : String).data = ['L', 'E', 'F', 'T', ' ', 'A', 'L', 'T']
      from rfl] at heq
    injection heq with h1 h2
    exact absurd h1 (by decide)
  refine ⟨?_, ?_, hlen _ (by decide), hlen _ (by decide)⟩
  · simp only [isCtrlKey, Bool.or_eq_false_iff, decide_eq_false_iff_not]
    exact ⟨hlen _ (by decide), hlen _ (by decide)⟩
  · simp only [isAltKey, Bool.or_eq_false_iff, decide_eq_false_iff_not]
    exact ⟨hla, hlen _ (by decide)⟩

/-- The digit branch of handleKeyDown (lines 77-100): on a numpad digit
DOWN with Ctrl held and Alt not held, the buffer is cleared when stale,
the digit is appended, and a full 2-digit buffer is flushed as a
setTemperature emission. -/
lemma handleKeyDown_digit (s : DecoderState) (key : String) (t : Int) (c : Char)
    (hk : (upperStr key, c) ∈ npDigits) (hc : s.ctrlPressed = true)
    (ha : s.altPressed = false) :
    handleKeyDown s key t =
      (let buf := (if t - s.lastKeyTime > 1000 then [] else s.temperatureBuffer) ++ [c]
       if buf.length = 2 then
         ({ s with temperatureBuffer := [], lastKeyTime := t },
           some (Command.setTemperature (parseDigits buf)))
       else
         ({ s with temperatureBuffer := buf, lastKeyTime := t }, none)) := by
  have hfacts : ∀ p ∈ npDigits, numpadDigit? p.1 = some p.2 ∧ isCtrlKey p.1 = false ∧
      isAltKey p.1 = false ∧ p.1 ≠ "NUMPAD DOT" ∧ p.1 ≠ "NUMPAD DELETE" := by decide
  obtain ⟨hnp, hcu, hau, hd1, hd2⟩ := hfacts _ hk
  have hmod : modDown s (upperStr key) = s := modDown_other s _ hcu hau
  simp only [handleKeyDown, hmod, hnp, hc, ha, hd1, hd2]
  simp

/-- Emission inversion: whenever handleKeyDown emits setTemperature v from
a state whose buffer holds at most one digit, the event was a qualifying
numpad-digit DOWN arriving within 1000 ms of the previously accepted
digit, the buffer held exactly one digit, v combines the two digits in
arrival order, and the buffer is left cleared. -/
lemma setTemp_emit_inv (s : DecoderState) (key : String) (t : Int) (v : Nat)
    (h : (handleKeyDown s key t).2 = some (Command.setTemperature v)) :
    ∃ c1 c, s.temperatureBuffer = [c1] ∧
      numpadDigit? (upperStr key) = some c ∧
      s.ctrlPressed = true ∧ s.altPressed = false ∧
      ¬ t - s.lastKeyTime > 1000 ∧
      v = 10 * digitVal c1 + digitVal c ∧
      (handleKeyDown s key t).1.temperatureBuffer = [] := by
  rcases hnp : numpadDigit? (upperStr key) with _ | c
  · exfalso
    simp only [handleKeyDown, hnp] at h
    split at h
    · simp at h
    · split at h
      · simp at h
      · split at h
        · simp at h
        · split at h
          · simp at h
          · simp at h
  · obtain ⟨hcu, hau, -, -⟩ := numpad_not_mod _ _ hnp
    have hmod : modDown s (upperStr key) = s := modDown_other s _ hcu hau
    simp only [handleKeyDown, hmod, hnp] at h
    split at h
    case isTrue h1 => simp at h
    case isFalse h1 =>
      split at h
      case isTrue h2 => simp at h
      case isFalse h2 =>
        split at h
        case isTrue h3 => simp at h
        case isFalse h3 =>
          split at h
          case isFalse h4 => simp at h
          case isTrue h4 =>
            by_cases hst : t - s.lastKeyTime > 1000
            · rw [if_pos hst] at h
              simp at h
            · rw [if_neg hst] at h
              by_cases hlen : (s.temperatureBuffer ++ [c]).length = 2
              · rw [if_pos hlen] at h
                simp only [Option.some.injEq, Command.setTemperature.injEq] at h
                have hb1 : s.temperatureBuffer.length = 1 := by
                  simp only [List.length_append, List.length_singleton] at hlen
                  omega
                obtain ⟨c1, hb⟩ : ∃ c1, s.temperatureBuffer = [c1] :=
                  List.length_eq_one.mp hb1
                simp only [Bool.and_eq_true, Bool.not_eq_true'] at h4
                refine ⟨c1, c, hb, rfl, h4.1, h4.2, hst, ?_, ?_⟩
                · rw [← h, hb]
                  simp [parseDigits]
                · simp only [handleKeyDown, hmod, hnp]
                  rw [if_neg h1, if_neg h2, if_neg h3,
                    if_pos (by simp [h4.1, h4.2] : (s.ctrlPressed && !s.altPressed) = true),
                    if_neg hst, if_pos hlen]
              · rw [if_neg hlen] at h
                simp at h

/-- Ctrl release (lines 107-114): the Ctrl flag and the buffer are
cleared, everything else is untouched. -/
lemma handleKeyUp_ctrl (s : DecoderState) (key : String)
    (hcu : isCtrlKey (upperStr key) = true) :
    handleKeyUp s key = { s with ctrlPressed := false, temperatureBuffer := [] } := by
  rcases (by simpa [isCtrlKey] using hcu : upperStr key = "LEFT CTRL" ∨
      upperStr key = "RIGHT CTRL") with h2 | h2 <;>
    cases hbuf : s.temperatureBuffer <;>
    simp +decide [handleKeyUp, h2, hbuf]

/-- Alt release (lines 115-117): only the Alt flag is cleared. -/
lemma handleKeyUp_alt (s : DecoderState) (key : String)
    (hau : isAltKey (upperStr key) = true) :
    handleKeyUp s key = { s with altPressed := false } := by
  rcases (by simpa [isAltKey] using hau : upperStr key = "LEFT ALT" ∨
      upperStr key = "RIGHT ALT") with h2 | h2 <;>
    simp +decide [handleKeyUp, h2]

/-- UP of any non-modifier key is a no-op. -/
lemma handleKeyUp_other (s : DecoderState) (key : String)
    (hcu : isCtrlKey (upperStr key) = false)
    (hau : isAltKey (upperStr key) = false) :
    handleKeyUp s key = s := by
  simp [handleKeyUp, hcu, hau]

/-- Every single decoder step preserves the one-digit buffer invariant. -/
lemma bufInv_step (s : DecoderState) (e : RawEvent) (hinv : BufInv s) :
    BufInv (stepD s e).1 := by
  simp only [BufInv] at hinv ⊢
  cases e with
  | up k =>
    by_cases hcu : isCtrlKey (upperStr k) <;> by_cases hau : isAltKey (upperStr k) <;>
      simp only [stepD] <;>
      simp [handleKeyUp, hcu, hau] <;>
      first
        | exact hinv
        | (split <;> simp_all)
  | down k t =>
    simp only [stepD, handleKeyDown]
    split
    · simp
    · split
      · simp
      · split
        · simp
        · split
          · split
            · split <;> split <;> simp_all [modDown_buffer] <;>
                exact List.eq_nil_of_length_eq_zero (by omega)
            · simpa [modDown_buffer] using hinv
          · simpa [modDown_buffer] using hinv

/-- The buffer invariant holds along every run from any state satisfying
it, in particular from the initial state. -/
lemma bufInv_runD (es : List RawEvent) (s : DecoderState) (hinv : BufInv s) :
    BufInv (runD s es).1 := by
  induction es generalizing s with
  | nil => exact hinv
  | cons e es ih => exact ih _ (bufInv_step s e hinv)

/-- A DOWN of a Ctrl key while Alt is not held only sets the Ctrl flag. -/
lemma handleKeyDown_ctrlKey (s : DecoderState) (key : String) (t : Int)
    (hcu : isCtrlKey (upperStr key) = true) (ha : s.altPressed = false) :
    handleKeyDown s key t = ({ s with ctrlPressed := true }, none) := by
  rcases (by simpa [isCtrlKey] using hcu : upperStr key = "LEFT CTRL" ∨
      upperStr key = "RIGHT CTRL") with h2 | h2
  · simp +decide [handleKeyDown, modDown, h2, ha,
      (by decide : numpadDigit? "LEFT CTRL" = none)]
  · simp +decide [handleKeyDown, modDown, h2, ha,
      (by decide : numpadDigit? "RIGHT CTRL" = none)]

/-- Case-equivalence of key names: equal after ASCII upper-casing. -/
@[reducible] def keyCaseEq (s t : String) : Prop := upperStr s = upperStr t

/-- Case-equivalence of raw events: same event kind, case-equivalent key
name, identical timestamp. -/
def evCaseEq : RawEvent → RawEvent → Prop
  | RawEvent.down k1 t1, RawEvent.down k2 t2 => keyCaseEq k1 k2 ∧ t1 = t2
  | RawEvent.up k1, RawEvent.up k2 => keyCaseEq k1 k2
  | _, _ => False

/-- handleKeyDown only sees the upper-cased key name. -/
lemma handleKeyDown_congr (s : DecoderState) (k1 k2 : String) (t : Int)
    (h : upperStr k1 = upperStr k2) :
    handleKeyDown s k1 t = handleKeyDown s k2 t := by
  simp only [handleKeyDown, h]

/-- handleKeyUp only sees the upper-cased key name. -/
lemma handleKeyUp_congr (s : DecoderState) (k1 k2 : String)
    (h : upperStr k1 = upperStr k2) :
    handleKeyUp s k1 = handleKeyUp s k2 := by
  simp only [handleKeyUp, h]

/-- C1: the decoder emits SetTemperature exactly at the event where a
second qualifying digit (Ctrl held, Alt not held, numpad digit DOWN)
arrives within 1000 ms of the previous accepted digit, with payload
10*d1+d2 in arrival order; a stale (> 1000 ms) buffer is cleared before
the new digit is appended; the buffer is cleared after each emission;
and a single buffered digit is never emitted alone (every run keeps the
buffer at most one digit between events, and an emission forces a
one-digit buffer plus an in-time second digit). -/
theorem c1_two_digit_temperature :
    (∀ es, BufInv (runD initState es).1) ∧
    (∀ s key t c, (upperStr key, c) ∈ npDigits →
      s.ctrlPressed = true → s.altPressed = false →
      ((t - s.lastKeyTime > 1000 →
          handleKeyDown s key t =
            ({ s with temperatureBuffer := [c], lastKeyTime := t }, none)) ∧
       (¬ t - s.lastKeyTime > 1000 → s.temperatureBuffer = [] →
          handleKeyDown s key t =
            ({ s with temperatureBuffer := [c], lastKeyTime := t }, none)) ∧
       (∀ c1, ¬ t - s.lastKeyTime > 1000 → s.temperatureBuffer = [c1] →
          handleKeyDown s key t =
            ({ s with temperatureBuffer := [], lastKeyTime := t },
              some (Command.setTemperature (10 * digitVal c1 + digitVal c)))))) ∧
    (∀ s key t v, (handleKeyDown s key t).2 = some (Command.setTemperature v) →
      ∃ c1 c, s.temperatureBuffer = [c1] ∧
        numpadDigit? (upperStr key) = some c ∧
        s.ctrlPressed = true ∧ s.altPressed = false ∧
        ¬ t - s.lastKeyTime > 1000 ∧
        v = 10 * digitVal c1 + digitVal c ∧
        (handleKeyDown s key t).1.temperatureBuffer = []) := by
  refine ⟨fun es => bufInv_runD es _ (by simp [BufInv, initState]), ?_,
    fun s key t v h => setTemp_emit_inv s key t v h⟩
  intro s key t c hk hc ha
  have hd := handleKeyDown_digit s key t c hk hc ha
  refine ⟨?_, ?_, ?_⟩
  · intro hst
    rw [hd]
    simp [if_pos hst]
  · intro hst hb
    rw [hd]
    simp [if_neg hst, hb]
  · intro c1 hst hb
    rw [hd]
    simp [if_neg hst, hb, parseDigits]

/-- C1 witness: from Ctrl held, Alt up, one buffered digit 2 accepted at
t=500, a NUMPAD 5 DOWN at t=600 emits SetTemperature 25 and clears the
buffer. -/
theorem c1_witness :
    handleKeyDown ⟨true, false, ['2'], 500⟩ "NUMPAD 5" 600 =
      (⟨true, false, [], 600⟩,
        some (Command.setTemperature (10 * digitVal '2' + digitVal '5'))) :=
  (c1_two_digit_temperature.2.1 ⟨true, false, ['2'], 500⟩ "NUMPAD 5" 600 '5'
      (by decide) rfl rfl).2.2 '2' (by decide) rfl

/-- C6: a hotkey Command is emitted at a DOWN of its trigger key iff the
required modifier combination over the tracked set (Ctrl, Alt) holds
exactly at that moment - voiceStatus needs Ctrl and not Alt, powerOn and
powerOff need Ctrl and Alt - and keys outside the tracked modifier set
never change the modifier flags. -/
theorem c6_hotkey_exact_modifiers :
    ∀ s key t,
      ((upperStr key = "NUMPAD DOT" ∨ upperStr key = "NUMPAD DELETE") →
        ((handleKeyDown s key t).2 = some Command.voiceStatus ↔
          s.ctrlPressed = true ∧ s.altPressed = false)) ∧
      (upperStr key = "NUMPAD 1" →
        ((handleKeyDown s key t).2 = some Command.powerOn ↔
          s.ctrlPressed = true ∧ s.altPressed = true)) ∧
      (upperStr key = "NUMPAD 0" →
        ((handleKeyDown s key t).2 = some Command.powerOff ↔
          s.ctrlPressed = true ∧ s.altPressed = true)) ∧
      (isCtrlKey (upperStr key) = false → isAltKey (upperStr key) = false →
        (handleKeyDown s key t).1.ctrlPressed = s.ctrlPressed ∧
        (handleKeyDown s key t).1.altPressed = s.altPressed ∧
        (handleKeyUp s key).ctrlPressed = s.ctrlPressed ∧
        (handleKeyUp s key).altPressed = s.altPressed) := by
  intro s key t
  refine ⟨?_, ?_, ?_, ?_⟩
  · intro hu
    obtain ⟨c, a, buf, lt⟩ := s
    rcases hu with hu | hu <;> cases c <;> cases a <;>
      simp +decide [handleKeyDown, modDown, hu]
  · intro hu
    obtain ⟨c, a, buf, lt⟩ := s
    cases c <;> cases a <;>
      simp +decide [handleKeyDown, modDown, hu,
        (by decide : numpadDigit? "NUMPAD 1" = some ('1'))] <;>
      (repeat' split) <;> simp
  · intro hu
    obtain ⟨c, a, buf, lt⟩ := s
    cases c <;> cases a <;>
      simp +decide [handleKeyDown, modDown, hu,
        (by decide : numpadDigit? "NUMPAD 0" = some ('0'))] <;>
      (repeat' split) <;> simp
  · intro hcu hau
    have hmod : modDown s (upperStr key) = s := modDown_other s _ hcu hau
    have hup : handleKeyUp s key = s := handleKeyUp_other s key hcu hau
    refine ⟨?_, ?_, by rw [hup], by rw [hup]⟩ <;>
      · simp only [handleKeyDown, hmod]
        repeat' split
        all_goals rfl

/-- C6 witness: with Ctrl and Alt both held, NUMPAD DOT does not fire
voiceStatus (strict combination check), while with Ctrl only it does. -/
theorem c6_witness :
    (handleKeyDown ⟨true, true, [], 0⟩ "NUMPAD DOT" 5).2 ≠
        some Command.voiceStatus ∧
      (handleKeyDown ⟨true, false, [], 0⟩ "NUMPAD DOT" 5).2 =
        some Command.voiceStatus :=
  ⟨fun h => by
      have := ((c6_hotkey_exact_modifiers ⟨true, true, [], 0⟩ "NUMPAD DOT" 5).1
        (Or.inl (by decide))).mp h
      simp at this,
    ((c6_hotkey_exact_modifiers ⟨true, false, [], 0⟩ "NUMPAD DOT" 5).1
      (Or.inl (by decide))).mpr ⟨rfl, rfl⟩⟩

/-- C7: releasing Ctrl clears the Ctrl flag and unconditionally clears the
digit buffer, releasing Alt clears only the Alt flag and leaves the
buffer; hence after a Ctrl release, a fresh Ctrl+digit+digit sequence
emits the two new digits regardless of any previously pending digit. -/
theorem c7_ctrl_release_clears_buffer :
    ∀ s key,
      (isCtrlKey (upperStr key) = true →
        handleKeyUp s key =
          { s with ctrlPressed := false, temperatureBuffer := [] }) ∧
      (isAltKey (upperStr key) = true →
        handleKeyUp s key = { s with altPressed := false }) ∧
      (∀ k2 d1 d2 c1 c2 t0 t1 t2,
        isCtrlKey (upperStr key) = true → s.altPressed = false →
        isCtrlKey (upperStr k2) = true →
        (upperStr d1, c1) ∈ npDigits → (upperStr d2, c2) ∈ npDigits →
        ¬ t2 - t1 > 1000 →
        (runD s [RawEvent.up key, RawEvent.down k2 t0, RawEvent.down d1 t1,
          RawEvent.down d2 t2]).2 =
          [Command.setTemperature (10 * digitVal c1 + digitVal c2)]) := by
  intro s key
  refine ⟨fun hcu => handleKeyUp_ctrl s key hcu,
    fun hau => handleKeyUp_alt s key hau, ?_⟩
  intro k2 d1 d2 c1 c2 t0 t1 t2 hcu ha hck hk1 hk2 ht
  have e1 : handleKeyUp s key =
      { s with ctrlPressed := false, temperatureBuffer := [] } :=
    handleKeyUp_ctrl s key hcu
  have e2 : handleKeyDown
      { s with ctrlPressed := false, temperatureBuffer := [] } k2 t0 =
      ({ s with ctrlPressed := true, temperatureBuffer := [] }, none) := by
    rw [handleKeyDown_ctrlKey
      { s with ctrlPressed := false, temperatureBuffer := [] } k2 t0 hck ha]
  have e3 : handleKeyDown
      { s with ctrlPressed := true, temperatureBuffer := [] } d1 t1 =
      ({ s with ctrlPressed := true, temperatureBuffer := [c1], lastKeyTime := t1 },
        none) := by
    rw [handleKeyDown_digit
      { s with ctrlPressed := true, temperatureBuffer := [] } d1 t1 c1 hk1 rfl ha]
    simp
  have e4 : handleKeyDown
      { s with ctrlPressed := true, temperatureBuffer := [c1], lastKeyTime := t1 }
      d2 t2 =
      ({ s with ctrlPressed := true, temperatureBuffer := [], lastKeyTime := t2 },
        some (Command.setTemperature (10 * digitVal c1 + digitVal c2))) := by
    rw [handleKeyDown_digit
      { s with ctrlPressed := true, temperatureBuffer := [c1], lastKeyTime := t1 }
      d2 t2 c2 hk2 rfl ha]
    simp [if_neg ht, parseDigits]
  simp [runD, stepD, e1, e2, e3, e4]

/-- C7 witness: with a pending digit 7 and Ctrl held, a LEFT CTRL UP
clears the buffer, and the following fresh Ctrl+2+5 sequence emits 25,
unaffected by the discarded 7. -/
theorem c7_witness :
    handleKeyUp ⟨true, false, ['7'], 100⟩ "LEFT CTRL" =
        ⟨false, false, [], 100⟩ ∧
      (runD ⟨true, false, ['7'], 100⟩
        [RawEvent.up "LEFT CTRL", RawEvent.down "LEFT CTRL" 200,
          RawEvent.down "NUMPAD 2" 300, RawEvent.down "NUMPAD 5" 400]).2 =
        [Command.setTemperature (10 * digitVal '2' + digitVal '5')] :=
  ⟨(c7_ctrl_release_clears_buffer ⟨true, false, ['7'], 100⟩ "LEFT CTRL").1
      (by decide),
    (c7_ctrl_release_clears_buffer ⟨true, false, ['7'], 100⟩ "LEFT CTRL").2.2
      "LEFT CTRL" "NUMPAD 2" "NUMPAD 5" '2' '5' 200 300 400
      (by decide) rfl (by decide) (by decide) (by decide) (by decide)⟩

/-- C9: the decoder is total - every raw event yields a defined state
transition; an UP of a key that is not a tracked modifier (in particular
one never seen DOWN) is ignored; duplicate DOWNs of an already-held
modifier are exact no-ops; so no input reaches an error. -/
theorem c9_decoder_total :
    (∀ s e, ∃ s2 out, stepD s e = (s2, out)) ∧
    (∀ s key, isCtrlKey (upperStr key) = false →
      isAltKey (upperStr key) = false → handleKeyUp s key = s) ∧
    (∀ s key t, isCtrlKey (upperStr key) = true → s.ctrlPressed = true →
      handleKeyDown s key t = (s, none)) ∧
    (∀ s key t, isAltKey (upperStr key) = true → s.altPressed = true →
      handleKeyDown s key t = (s, none)) := by
  refine ⟨fun s e => ⟨_, _, rfl⟩,
    fun s key hcu hau => handleKeyUp_other s key hcu hau, ?_, ?_⟩
  · intro s key t hcu hc
    obtain ⟨c, a, buf, lt⟩ := s
    rcases (by simpa [isCtrlKey] using hcu : upperStr key = "LEFT CTRL" ∨
        upperStr key = "RIGHT CTRL") with h2 | h2 <;>
      cases c <;> cases a <;>
        simp_all +decide [handleKeyDown, modDown, h2,
          (by decide : numpadDigit? "LEFT CTRL" = none),
          (by decide : numpadDigit? "RIGHT CTRL" = none)]
  · intro s key t hau ha
    obtain ⟨c, a, buf, lt⟩ := s
    rcases (by simpa [isAltKey] using hau : upperStr key = "LEFT ALT" ∨
        upperStr key = "RIGHT ALT") with h2 | h2 <;>
      cases c <;> cases a <;>
        simp_all +decide [handleKeyDown, modDown, h2]

/-- C9 witness: an UP for key A (never seen DOWN) is ignored, and a
duplicate LEFT CTRL DOWN while Ctrl is already held is a no-op. -/
theorem c9_witness :
    handleKeyUp ⟨false, false, [], 0⟩ "A" = ⟨false, false, [], 0⟩ ∧
      handleKeyDown ⟨true, false, ['3'], 50⟩ "LEFT CTRL" 60 =
        (⟨true, false, ['3'], 50⟩, none) :=
  ⟨c9_decoder_total.2.1 ⟨false, false, [], 0⟩ "A" (by decide) (by decide),
    c9_decoder_total.2.2.1 ⟨true, false, ['3'], 50⟩ "LEFT CTRL" 60
      (by decide) rfl⟩

/-- C10: the decoder is case-insensitive in key identifiers - two raw
event streams that differ only in the letter case of their key names
(same event kinds and timestamps) produce identical decoder runs, since
both DOWN and UP handling upper-case the incoming name before any
matching. -/
theorem c10_case_insensitive :
    ∀ es1 es2 s, List.Forall₂ evCaseEq es1 es2 → runD s es1 = runD s es2 := by
  intro es1 es2 s h
  induction h generalizing s with
  | nil => rfl
  | @cons e1 e2 l1 l2 he ht ih =>
    cases e1 with
    | down k1 t1 =>
      cases e2 with
      | down k2 t2 =>
        simp only [evCaseEq, keyCaseEq] at he
        obtain ⟨hk, htt⟩ := he
        subst htt
        simp only [runD, stepD]
        rw [handleKeyDown_congr s k1 k2 t1 hk, ih]
      | up k2 => simp [evCaseEq] at he
    | up k1 =>
      cases e2 with
      | down k2 t2 => simp [evCaseEq] at he
      | up k2 =>
        simp only [evCaseEq, keyCaseEq] at he
        simp only [runD, stepD]
        rw [handleKeyUp_congr s k1 k2 he, ih]

/-- C10 witness: the lower-case stream "left ctrl", "numpad 2",
"Numpad 5" decodes exactly like its upper-case counterpart. -/
theorem c10_witness :
    runD initState [RawEvent.down "left ctrl" 0, RawEvent.down "numpad 2" 10,
        RawEvent.down "Numpad 5" 20] =
      runD initState [RawEvent.down "LEFT CTRL" 0, RawEvent.down "NUMPAD 2" 10,
        RawEvent.down "NUMPAD 5" 20] :=
  c10_case_insensitive _ _ initState
    (List.Forall₂.cons ⟨by decide, rfl⟩
      (List.Forall₂.cons ⟨by decide, rfl⟩
        (List.Forall₂.cons ⟨by decide, rfl⟩ List.Forall₂.nil)))

/-
Part 2 - Command Orchestrator, embedded from src/unnamed/part_003 (the
application entry point, class ACController): the retry loop withRetry
(lines 123-147) and the three keyboard event handlers registered in
setupEventHandlers (lines 174-239).  A handler execution is modelled as
the sequence of its observable actions: remote-call starts and ends,
backoff sleeps, and voice-feedback calls.  Remote outcomes are injected
as an oracle (attempt number to success flag), Math.random()*1000 as a
per-attempt rational jitter, and Math.min / exponential backoff use
exact rational arithmetic.
-/

/-- One observable action of an orchestrator handler: the start of a
remote call (the request is dispatched and the handler suspends), the
end of a remote call (the response arrives and the continuation runs),
a backoff sleep (setTimeout await, lines 142-143), or one voice feedback
call (announceSuccess / announceError / announceTemperatures). -/
inductive HEv where
  | callStart : String → HEv
  | callEnd : String → Bool → HEv
  | sleep : Rat → HEv
  | fb : String → HEv
deriving DecidableEq, Repr

/-- The retry configuration read from the environment: maxRetries and
retryDelay (part_003 lines 84-85, 117-118). -/
structure RetryCtx where
  maxRetries : Nat
  retryDelay : Rat
deriving DecidableEq, Repr

/-- The configuration validation of validateEnvironment for the retry
fields (part_003 lines 99-104): MAX_RETRIES in [1,10] and RETRY_DELAY in
[500,30000] are accepted. -/
def validRetryConfig (maxRetries retryDelay : Int) : Bool :=
  !(maxRetries < 1 || maxRetries > 10) &&
    !(retryDelay < 500 || retryDelay > 30000)

/-- Math.min on rationals (part_003 line 137), written as its defining
conditional so that it evaluates. -/
def ratMin (x y : Rat) : Rat := if x ≤ y then x else y

/-- ratMin agrees with the lattice min. -/
lemma ratMin_eq_min (x y : Rat) : ratMin x y = min x y := by
  rw [ratMin, min_def]

/-- Math.pow(2, n) for natural n (part_003 line 138), written as iterated
doubling so that it evaluates. -/
def pow2 : Nat → Rat
  | 0 => 1
  | n + 1 => 2 * pow2 n

/-- pow2 agrees with the monoid power. -/
lemma pow2_eq (n : Nat) : pow2 n = 2 ^ n := by
  induction n with
  | zero => simp [pow2]
  | succ n ih =>
    rw [pow2, ih, pow_succ]
    ring

/-- withRetry (part_003 lines 123-147), unrolled over the loop counter.
`atr k` is the observable trace of attempt k (ending in its callEnd),
`o k` tells whether attempt k succeeds, `jit k` is the jitter drawn for
attempt k.  The fuel argument counts the remaining loop iterations
(maxRetries - attempt + 1 at entry); on failure with attempts remaining
the delay is min(retryDelay * 2^(attempt-1) + jitter, 10000) exactly as
in lines 137-140, followed by the recursive continuation.  Returns the
trace and whether the operation eventually succeeded (null result in the
source maps to false). -/
def withRetryGo (atr : Nat → List HEv) (o : Nat → Bool) (jit : Nat → Rat)
    (ctx : RetryCtx) (opName : String) : Nat → Nat → List HEv × Bool
  | _, 0 => ([], false)
  | a, fuel + 1 =>
    if o a then (atr a, true)
    else if a = ctx.maxRetries then
      (atr a ++ [HEv.fb ("Error: " ++ opName ++ " failed")], false)
    else
      let d := ratMin (ctx.retryDelay * pow2 (a - 1) + jit a) 10000
      let r := withRetryGo atr o jit ctx opName (a + 1) fuel
      (atr a ++ HEv.sleep d :: r.1, r.2)

/-- withRetry entered at attempt 1 with maxRetries loop iterations. -/
def withRetryT (atr : Nat → List HEv) (o : Nat → Bool) (jit : Nat → Rat)
    (ctx : RetryCtx) (opName : String) : List HEv × Bool :=
  withRetryGo atr o jit ctx opName 1 ctx.maxRetries

/-- The observable trace of one attempt of a single-call operation. -/
def callAttempt (nm : String) (o : Nat → Bool) (k : Nat) : List HEv :=
  [HEv.callStart nm, HEv.callEnd nm (o k)]

/-- The out-of-range error text of the setTemperature handler
(part_003 line 196). -/
def tempRangeMsg (minT maxT : Int) : String :=
  "Temperature must be between " ++ toString minT ++ " and " ++ toString maxT

/-- The setTemperature handler (part_003 lines 192-215): out-of-range
temperatures are rejected with one announceError and no remote call;
otherwise the remote mutation runs under withRetry and a success is
announced.  announceError prefixes "Error: " (voice.ts line 108). -/
def setTemperatureHandler (minT maxT : Int) (ctx : RetryCtx) (n : Int)
    (o : Nat → Bool) (jit : Nat → Rat) : List HEv :=
  if n < minT ∨ n > maxT then
    [HEv.fb ("Error: " ++ tempRangeMsg minT maxT)]
  else
    let r := withRetryT (callAttempt "setTemperature" o) o jit ctx
      "Set temperature"
    r.1 ++ (if r.2 then
      [HEv.fb ("Temperature set to " ++ toString n ++ " degrees")] else [])

/-- The toggle handler (part_003 lines 176-189): togglePower under
withRetry, then announceSuccess with the new power state. -/
def toggleHandler (ctx : RetryCtx) (o : Nat → Bool) (jit : Nat → Rat)
    (newState : Bool) : List HEv :=
  let r := withRetryT (callAttempt "togglePower" o) o jit ctx "Toggle power"
  r.1 ++ (if r.2 then
    [HEv.fb ("AC turned " ++ (if newState then "on" else "off"))] else [])

/-- One attempt of the voiceStatus compound operation (part_003
lines 222-228): Promise.all dispatches the state read and the
room-temperature read together, then joins both results; the attempt
succeeds iff both reads succeed. -/
def statusAttempt (so ro : Nat → Bool) (k : Nat) : List HEv :=
  [HEv.callStart "getCurrentState", HEv.callStart "getRoomTemperature",
   HEv.callEnd "getCurrentState" (so k), HEv.callEnd "getRoomTemperature" (ro k)]

/-- The combined announcement of announceTemperatures (voice.ts
lines 96-99), carrying both the target and the room temperature. -/
def statusMsg (targetTemp roomTemp : Int) : String :=
  "Target temperature: " ++ toString targetTemp ++
    " degrees. Current room temperature: " ++ toString roomTemp ++ " degrees."

/-- The withRetry run of the voiceStatus compound operation (part_003
lines 221-230). -/
def voiceStatusRetry (ctx : RetryCtx) (so ro : Nat → Bool)
    (jit : Nat → Rat) : List HEv × Bool :=
  withRetryT (statusAttempt so ro) (fun k => so k && ro k) jit ctx "Get status"

/-- The voiceStatus handler (part_003 lines 218-238). -/
def voiceStatusHandler (ctx : RetryCtx) (so ro : Nat → Bool) (jit : Nat → Rat)
    (targetTemp roomTemp : Int) : List HEv :=
  let r := voiceStatusRetry ctx so ro jit
  r.1 ++ (if r.2 then [HEv.fb (statusMsg targetTemp roomTemp)] else [])

/-- The feedback messages of a trace, in order. -/
def fbMsgs (tr : List HEv) : List String :=
  tr.filterMap (fun e => match e with | HEv.fb m => some m | _ => none)

/-- The number of feedback calls of a trace. -/
def fbCount (tr : List HEv) : Nat := (fbMsgs tr).length

/-- The backoff sleeps of a trace, in order. -/
def sleepsOf (tr : List HEv) : List Rat :=
  tr.filterMap (fun e => match e with | HEv.sleep d => some d | _ => none)

/-- The number of remote-call starts of a trace. -/
def startsOf (tr : List HEv) : Nat :=
  tr.countP (fun e => match e with | HEv.callStart _ => true | _ => false)

/-- The number of starts of one named remote call. -/
def startCount (nm : String) (tr : List HEv) : Nat :=
  tr.countP (fun e => e = HEv.callStart nm)

/-- The delay inserted after a failed attempt a (part_003
lines 137-140). -/
def delayFor (ctx : RetryCtx) (jit : Nat → Rat) (a : Nat) : Rat :=
  ratMin (ctx.retryDelay * pow2 (a - 1) + jit a) 10000

/-- The expected trace of attempts a, a+1, ..., a+n with backoff sleeps
between them, followed by `tail` after the last attempt. -/
def aws (atr : Nat → List HEv) (jit : Nat → Rat) (ctx : RetryCtx)
    (tail : List HEv) : Nat → Nat → List HEv
  | a, 0 => atr a ++ tail
  | a, n + 1 => atr a ++ HEv.sleep (delayFor ctx jit a) :: aws atr jit ctx tail (a + 1) n

lemma fbMsgs_nil : fbMsgs [] = [] := rfl

lemma fbMsgs_append (l1 l2 : List HEv) :
    fbMsgs (l1 ++ l2) = fbMsgs l1 ++ fbMsgs l2 := by
  simp [fbMsgs]

lemma fbMsgs_sleep_cons (d : Rat) (l : List HEv) :
    fbMsgs (HEv.sleep d :: l) = fbMsgs l := by
  simp [fbMsgs]

lemma fbMsgs_fb_cons (m : String) (l : List HEv) :
    fbMsgs (HEv.fb m :: l) = m :: fbMsgs l := by
  simp [fbMsgs]

lemma sleepsOf_append (l1 l2 : List HEv) :
    sleepsOf (l1 ++ l2) = sleepsOf l1 ++ sleepsOf l2 := by
  simp [sleepsOf]

lemma sleepsOf_sleep_cons (d : Rat) (l : List HEv) :
    sleepsOf (HEv.sleep d :: l) = d :: sleepsOf l := by
  simp [sleepsOf]

/-- Success characterization of the retry loop: if attempt a+n is the
first success in the window, the loop runs attempts a..a+n with one
backoff sleep after each failed attempt and stops at the success. -/
lemma withRetryGo_success (atr : Nat → List HEv) (o : Nat → Bool)
    (jit : Nat → Rat) (ctx : RetryCtx) (nm : String) :
    ∀ n a, a + n ≤ ctx.maxRetries → o (a + n) = true →
      (∀ j, a ≤ j → j < a + n → o j = false) →
      withRetryGo atr o jit ctx nm a (ctx.maxRetries + 1 - a) =
        (aws atr jit ctx [] a n, true) := by
  intro n
  induction n with
  | zero =>
    intro a ha ho _
    obtain ⟨f, hf⟩ : ∃ f, ctx.maxRetries + 1 - a = f + 1 :=
      ⟨ctx.maxRetries - a, by omega⟩
    rw [hf]
    simp only [withRetryGo]
    rw [if_pos (by simpa using ho)]
    simp [aws]
  | succ n ih =>
    intro a ha ho hprev
    obtain ⟨f, hf⟩ : ∃ f, ctx.maxRetries + 1 - a = f + 1 :=
      ⟨ctx.maxRetries - a, by omega⟩
    rw [hf]
    simp only [withRetryGo]
    have hoa : o a = false := hprev a le_rfl (by omega)
    rw [if_neg (by simp [hoa]), if_neg (by omega : ¬ a = ctx.maxRetries)]
    have ho2 : o (a + 1 + n) = true := by
      rw [show a + 1 + n = a + (n + 1) from by omega]
      exact ho
    have hprev2 : ∀ j, a + 1 ≤ j → j < a + 1 + n → o j = false := by
      intro j h1 h2
      exact hprev j (by omega) (by omega)
    have hff : f = ctx.maxRetries + 1 - (a + 1) := by omega
    rw [hff, ih (a + 1) (by omega) ho2 hprev2]
    simp [aws, delayFor]

/-- Exhaustion characterization of the retry loop: if every attempt in
the window fails, the loop runs all attempts with backoff sleeps and
ends with one failure feedback naming the operation. -/
lemma withRetryGo_fail (atr : Nat → List HEv) (o : Nat → Bool)
    (jit : Nat → Rat) (ctx : RetryCtx) (nm : String) :
    ∀ n a, a + n = ctx.maxRetries →
      (∀ j, a ≤ j → j ≤ ctx.maxRetries → o j = false) →
      withRetryGo atr o jit ctx nm a (ctx.maxRetries + 1 - a) =
        (aws atr jit ctx [HEv.fb ("Error: " ++ nm ++ " failed")] a n, false) := by
  intro n
  induction n with
  | zero =>
    intro a ha hall
    obtain ⟨f, hf⟩ : ∃ f, ctx.maxRetries + 1 - a = f + 1 :=
      ⟨ctx.maxRetries - a, by omega⟩
    rw [hf]
    simp only [withRetryGo]
    rw [if_neg (by simp [hall a le_rfl (by omega)]),
      if_pos (by omega : a = ctx.maxRetries)]
    simp [aws]
  | succ n ih =>
    intro a ha hall
    obtain ⟨f, hf⟩ : ∃ f, ctx.maxRetries + 1 - a = f + 1 :=
      ⟨ctx.maxRetries - a, by omega⟩
    rw [hf]
    simp only [withRetryGo]
    rw [if_neg (by simp [hall a le_rfl (by omega)]),
      if_neg (by omega : ¬ a = ctx.maxRetries)]
    have hff : f = ctx.maxRetries + 1 - (a + 1) := by omega
    rw [hff, ih (a + 1) (by omega) (fun j h1 h2 => hall j (by omega) h2)]
    simp [aws, delayFor]

/-- Feedback characterization of the retry loop: when the per-attempt
traces contain no feedback, the loop itself emits no feedback on success
and exactly the one failure message on exhaustion. -/
lemma withRetryGo_fb (atr : Nat → List HEv) (o : Nat → Bool)
    (jit : Nat → Rat) (ctx : RetryCtx) (nm : String)
    (hatr : ∀ j, fbMsgs (atr j) = []) :
    ∀ fuel a, a + fuel = ctx.maxRetries + 1 → a ≤ ctx.maxRetries →
      fbMsgs (withRetryGo atr o jit ctx nm a fuel).1 =
        (if (withRetryGo atr o jit ctx nm a fuel).2 = true then []
         else ["Error: " ++ nm ++ " failed"]) := by
  intro fuel
  induction fuel with
  | zero =>
    intro a h1 h2
    omega
  | succ fuel ih =>
    intro a h1 h2
    simp only [withRetryGo]
    by_cases hoa : o a = true
    · simp [hoa, hatr]
    · have hoa2 : o a = false := by simpa using hoa
      by_cases ham : a = ctx.maxRetries
      · subst ham
        simp [hoa2, fbMsgs_append, fbMsgs_fb_cons, fbMsgs_nil, hatr]
      · have hrec := ih (a + 1) (by omega) (by omega)
        simp only [hoa2, Bool.false_eq_true, if_false, ham, if_neg ham]
        simp [fbMsgs_append, fbMsgs_sleep_cons, hatr, hrec]

/-- Result characterization of the retry loop: it reports success iff
some attempt in the window succeeds. -/
lemma withRetryGo_result (atr : Nat → List HEv) (o : Nat → Bool)
    (jit : Nat → Rat) (ctx : RetryCtx) (nm : String) :
    ∀ fuel a, a + fuel = ctx.maxRetries + 1 →
      ((withRetryGo atr o jit ctx nm a fuel).2 = true ↔
        ∃ k, a ≤ k ∧ k ≤ ctx.maxRetries ∧ o k = true) := by
  intro fuel
  induction fuel with
  | zero =>
    intro a h
    simp only [withRetryGo]
    constructor
    · intro hh
      simp at hh
    · rintro ⟨k, h1, h2, -⟩
      omega
  | succ fuel ih =>
    intro a h
    simp only [withRetryGo]
    by_cases hoa : o a = true
    · rw [if_pos hoa]
      constructor
      · intro _
        exact ⟨a, le_rfl, by omega, hoa⟩
      · intro _
        rfl
    · have hoa2 : o a = false := by simpa using hoa
      by_cases ham : a = ctx.maxRetries
      · rw [if_neg (by simp [hoa2]), if_pos ham]
        simp only [Bool.false_eq_true, false_iff]
        rintro ⟨k, h1, h2, h3⟩
        rw [show k = a from by omega] at h3
        simp [hoa2] at h3
      · rw [if_neg (by simp [hoa2]), if_neg ham]
        rw [ih (a + 1) (by omega)]
        constructor
        · rintro ⟨k, h1, h2, h3⟩
          exact ⟨k, by omega, h2, h3⟩
        · rintro ⟨k, h1, h2, h3⟩
          refine ⟨k, ?_, h2, h3⟩
          rcases Nat.eq_or_lt_of_le h1 with he | hl
          · rw [← he] at h3
            simp [hoa2] at h3
          · omega

lemma aws_sleeps (atr : Nat → List HEv) (jit : Nat → Rat) (ctx : RetryCtx)
    (tail : List HEv) (hatr : ∀ j, sleepsOf (atr j) = [])
    (htail : sleepsOf tail = []) :
    ∀ n a, sleepsOf (aws atr jit ctx tail a n) =
      (List.range n).map (fun i => delayFor ctx jit (a + i)) := by
  intro n
  induction n with
  | zero =>
    intro a
    simp [aws, sleepsOf_append, hatr, htail]
  | succ n ih =>
    intro a
    simp only [aws, sleepsOf_append, sleepsOf_sleep_cons, hatr,
      List.nil_append, ih]
    rw [List.range_succ_eq_map]
    simp only [List.map_cons, List.map_map, Nat.add_zero]
    have hfun : (fun i => delayFor ctx jit (a + 1 + i)) =
        ((fun i => delayFor ctx jit (a + i)) ∘ Nat.succ) := by
      funext i
      simp only [Function.comp_apply]
      congr 1
      omega
    rw [hfun]

lemma aws_fbMsgs (atr : Nat → List HEv) (jit : Nat → Rat) (ctx : RetryCtx)
    (tail : List HEv) (hatr : ∀ j, fbMsgs (atr j) = []) :
    ∀ n a, fbMsgs (aws atr jit ctx tail a n) = fbMsgs tail := by
  intro n
  induction n with
  | zero =>
    intro a
    simp [aws, fbMsgs_append, hatr]
  | succ n ih =>
    intro a
    simp [aws, fbMsgs_append, fbMsgs_sleep_cons, hatr, ih]

lemma aws_countP (atr : Nat → List HEv) (jit : Nat → Rat) (ctx : RetryCtx)
    (tail : List HEv) (p : HEv → Bool) (hp : ∀ d, p (HEv.sleep d) = false)
    (m : Nat) (hatr : ∀ j, (atr j).countP p = m) (htail : tail.countP p = 0) :
    ∀ n a, (aws atr jit ctx tail a n).countP p = (n + 1) * m := by
  intro n
  induction n with
  | zero =>
    intro a
    simp [aws, List.countP_append, hatr, htail]
  | succ n ih =>
    intro a
    simp [aws, List.countP_append, List.countP_cons, hatr, htail, hp, ih]
    ring

lemma aws_head (atr : Nat → List HEv) (jit : Nat → Rat) (ctx : RetryCtx)
    (tail : List HEv) (a n : Nat) (x : HEv) (l : List HEv)
    (hx : atr a = x :: l) :
    (aws atr jit ctx tail a n).head? = some x := by
  cases n <;> simp [aws, hx]

/-- withRetryT specializations (loop entered at attempt 1). -/
lemma withRetryT_success (atr : Nat → List HEv) (o : Nat → Bool)
    (jit : Nat → Rat) (ctx : RetryCtx) (nm : String) (k : Nat)
    (h1 : 1 ≤ k) (h2 : k ≤ ctx.maxRetries) (ho : o k = true)
    (hprev : ∀ j, 1 ≤ j → j < k → o j = false) :
    withRetryT atr o jit ctx nm = (aws atr jit ctx [] 1 (k - 1), true) := by
  have h := withRetryGo_success atr o jit ctx nm (k - 1) 1 (by omega)
    (by rw [show 1 + (k - 1) = k from by omega]; exact ho)
    (fun j hj1 hj2 => hprev j hj1 (by omega))
  rw [withRetryT]
  rw [show ctx.maxRetries = ctx.maxRetries + 1 - 1 from by omega]
  exact h

lemma withRetryT_fail (atr : Nat → List HEv) (o : Nat → Bool)
    (jit : Nat → Rat) (ctx : RetryCtx) (nm : String)
    (hmax : 1 ≤ ctx.maxRetries)
    (hall : ∀ j, 1 ≤ j → j ≤ ctx.maxRetries → o j = false) :
    withRetryT atr o jit ctx nm =
      (aws atr jit ctx [HEv.fb ("Error: " ++ nm ++ " failed")] 1
        (ctx.maxRetries - 1), false) := by
  have h := withRetryGo_fail atr o jit ctx nm (ctx.maxRetries - 1) 1 (by omega)
    (fun j hj1 hj2 => hall j hj1 hj2)
  rw [withRetryT]
  rw [show ctx.maxRetries = ctx.maxRetries + 1 - 1 from by omega]
  exact h

lemma withRetryT_fb (atr : Nat → List HEv) (o : Nat → Bool)
    (jit : Nat → Rat) (ctx : RetryCtx) (nm : String)
    (hmax : 1 ≤ ctx.maxRetries) (hatr : ∀ j, fbMsgs (atr j) = []) :
    fbMsgs (withRetryT atr o jit ctx nm).1 =
      (if (withRetryT atr o jit ctx nm).2 = true then []
       else ["Error: " ++ nm ++ " failed"]) :=
  withRetryGo_fb atr o jit ctx nm hatr ctx.maxRetries 1 (by omega) hmax

lemma withRetryT_result (atr : Nat → List HEv) (o : Nat → Bool)
    (jit : Nat → Rat) (ctx : RetryCtx) (nm : String) :
    ((withRetryT atr o jit ctx nm).2 = true ↔
      ∃ k, 1 ≤ k ∧ k ≤ ctx.maxRetries ∧ o k = true) :=
  withRetryGo_result atr o jit ctx nm ctx.maxRetries 1 (by omega)

/-- A retry-wrapped handler that announces `m` on success makes exactly
one feedback call: the success announcement, or the retry loop's single
exhaustion announcement. -/
lemma fbCount_retry_handler (atr : Nat → List HEv) (o : Nat → Bool)
    (jit : Nat → Rat) (ctx : RetryCtx) (nm m : String)
    (hmax : 1 ≤ ctx.maxRetries) (hatr : ∀ j, fbMsgs (atr j) = []) :
    fbCount ((withRetryT atr o jit ctx nm).1 ++
      (if (withRetryT atr o jit ctx nm).2 then [HEv.fb m] else [])) = 1 := by
  have hfb := withRetryT_fb atr o jit ctx nm hmax hatr
  cases hres : (withRetryT atr o jit ctx nm).2 <;>
    rw [hres] at hfb <;>
    simp [fbCount, fbMsgs_append, hfb, hres, fbMsgs_fb_cons, fbMsgs_nil]

lemma delayFun_eq (ctx : RetryCtx) (jit : Nat → Rat) :
    (fun i => delayFor ctx jit (1 + i)) =
      (fun i => ratMin (ctx.retryDelay * 2 ^ i + jit (i + 1)) 10000) := by
  funext i
  rw [show (1 : Nat) + i = i + 1 from by omega]
  simp [delayFor, pow2_eq]

/-- C3 amended: the first attempt runs with no preceding delay, success on
attempt k short-circuits the remaining attempts, and the wait after a
failed attempt a equals min(retryDelay * 2^(a-1) + jitter_a, 10000 ms),
the cap being the hard-coded 10000 ms constant; with jitter in
[0, 1000 ms) each delay therefore lies between min(retryDelay * 2^(a-1),
10000) and min(retryDelay * 2^(a-1) + 1000, 10000). -/
theorem c3_retry_backoff :
    (∀ (nm : String) (o : Nat → Bool) (jit : Nat → Rat) (ctx : RetryCtx)
      (k : Nat), 1 ≤ k → k ≤ ctx.maxRetries → o k = true →
      (∀ j, 1 ≤ j → j < k → o j = false) →
      (withRetryT (callAttempt nm o) o jit ctx nm).2 = true ∧
      (withRetryT (callAttempt nm o) o jit ctx nm).1.head? =
        some (HEv.callStart nm) ∧
      startsOf (withRetryT (callAttempt nm o) o jit ctx nm).1 = k ∧
      sleepsOf (withRetryT (callAttempt nm o) o jit ctx nm).1 =
        (List.range (k - 1)).map
          (fun i => ratMin (ctx.retryDelay * 2 ^ i + jit (i + 1)) 10000) ∧
      ((∀ a, 0 ≤ jit a ∧ jit a < 1000) →
        ∀ d ∈ sleepsOf (withRetryT (callAttempt nm o) o jit ctx nm).1,
          ∃ i, i < k - 1 ∧
            ratMin (ctx.retryDelay * 2 ^ i) 10000 ≤ d ∧
            d ≤ ratMin (ctx.retryDelay * 2 ^ i + 1000) 10000)) ∧
    (∀ (nm : String) (o : Nat → Bool) (jit : Nat → Rat) (ctx : RetryCtx),
      1 ≤ ctx.maxRetries →
      (∀ j, 1 ≤ j → j ≤ ctx.maxRetries → o j = false) →
      (withRetryT (callAttempt nm o) o jit ctx nm).2 = false ∧
      sleepsOf (withRetryT (callAttempt nm o) o jit ctx nm).1 =
        (List.range (ctx.maxRetries - 1)).map
          (fun i => ratMin (ctx.retryDelay * 2 ^ i + jit (i + 1)) 10000)) := by
  constructor
  · intro nm o jit ctx k h1 h2 ho hprev
    rw [withRetryT_success (callAttempt nm o) o jit ctx nm k h1 h2 ho hprev]
    have hsl : sleepsOf (aws (callAttempt nm o) jit ctx [] 1 (k - 1)) =
        (List.range (k - 1)).map
          (fun i => ratMin (ctx.retryDelay * 2 ^ i + jit (i + 1)) 10000) := by
      rw [aws_sleeps (callAttempt nm o) jit ctx []
        (fun j => by simp [callAttempt, sleepsOf]) rfl (k - 1) 1, delayFun_eq]
    refine ⟨rfl, ?_, ?_, hsl, ?_⟩
    · exact aws_head (callAttempt nm o) jit ctx [] 1 (k - 1)
        (HEv.callStart nm) [HEv.callEnd nm (o 1)] rfl
    · show (aws (callAttempt nm o) jit ctx [] 1 (k - 1)).countP _ = k
      rw [aws_countP (callAttempt nm o) jit ctx [] _ (fun d => rfl) 1
        (fun j => by simp [callAttempt, List.countP_cons]) rfl (k - 1) 1]
      omega
    · intro hj d hd
      rw [hsl] at hd
      obtain ⟨i, hi, rfl⟩ := List.mem_map.mp hd
      refine ⟨i, List.mem_range.mp hi, ?_, ?_⟩
      · rw [ratMin_eq_min, ratMin_eq_min]
        exact min_le_min (by linarith [(hj (i + 1)).1]) le_rfl
      · rw [ratMin_eq_min, ratMin_eq_min]
        exact min_le_min (by linarith [(hj (i + 1)).2]) le_rfl
  · intro nm o jit ctx hmax hall
    rw [withRetryT_fail (callAttempt nm o) o jit ctx nm hmax hall]
    refine ⟨rfl, ?_⟩
    rw [aws_sleeps (callAttempt nm o) jit ctx
      [HEv.fb ("Error: " ++ nm ++ " failed")]
      (fun j => by simp [callAttempt, sleepsOf]) rfl (ctx.maxRetries - 1) 1,
      delayFun_eq]

/-- C3 witness: with maxRetries 3, base delay 2000, jitter 500, failure
on attempt 1 and success on attempt 2, the run succeeds, starts with the
first call, makes exactly 2 attempts and sleeps once as computed. -/
theorem c3_witness :
    (withRetryT (callAttempt "Set temperature" (fun k => k == 2))
        (fun k => k == 2) (fun _ => 500) ⟨3, 2000⟩ "Set temperature").2 = true ∧
      (withRetryT (callAttempt "Set temperature" (fun k => k == 2))
        (fun k => k == 2) (fun _ => 500) ⟨3, 2000⟩ "Set temperature").1.head? =
        some (HEv.callStart "Set temperature") ∧
      startsOf (withRetryT (callAttempt "Set temperature" (fun k => k == 2))
        (fun k => k == 2) (fun _ => 500) ⟨3, 2000⟩ "Set temperature").1 = 2 ∧
      sleepsOf (withRetryT (callAttempt "Set temperature" (fun k => k == 2))
        (fun k => k == 2) (fun _ => 500) ⟨3, 2000⟩ "Set temperature").1 =
        (List.range 1).map
          (fun i => ratMin ((⟨3, 2000⟩ : RetryCtx).retryDelay * 2 ^ i +
            (fun _ => (500 : Rat)) (i + 1)) 10000) ∧
      ((∀ a : Nat, (0 : Rat) ≤ 500 ∧ (500 : Rat) < 1000) →
        ∀ d ∈ sleepsOf (withRetryT (callAttempt "Set temperature"
            (fun k => k == 2)) (fun k => k == 2) (fun _ => 500) ⟨3, 2000⟩
            "Set temperature").1,
          ∃ i, i < 1 ∧
            ratMin ((⟨3, 2000⟩ : RetryCtx).retryDelay * 2 ^ i) 10000 ≤ d ∧
            d ≤ ratMin ((⟨3, 2000⟩ : RetryCtx).retryDelay * 2 ^ i + 1000)
              10000) :=
  c3_retry_backoff.1 "Set temperature" (fun k => k == 2) (fun _ => 500)
    ⟨3, 2000⟩ 2 (by omega) (by decide) rfl
    (by
      intro j hj1 hj2
      have : j = 1 := by omega
      rw [this]
      rfl)

/-- C3 counterexample: RETRY_DELAY = 30000 passes configuration
validation, yet the single delay before attempt 2 is 10000 ms, which is
below the claimed lower bound baseDelay * 2^0 = 30000 ms - the cap is
the constant 10000 ms, not a configured maxDelay above the base delay. -/
theorem c3_counterexample :
    validRetryConfig 3 30000 = true ∧
    sleepsOf (withRetryT (callAttempt "Set temperature" (fun k => k == 2))
        (fun k => k == 2) (fun _ => 0) ⟨3, 30000⟩ "Set temperature").1 =
      [10000] ∧
    ¬ ((30000 : Rat) * 2 ^ 0 ≤ 10000) := by
  refine ⟨by decide, ?_, by norm_num⟩
  rw [withRetryT_success (callAttempt "Set temperature" (fun k => k == 2))
    (fun k => k == 2) (fun _ => 0) ⟨3, 30000⟩ "Set temperature" 2 (by omega)
    (by decide) rfl
    (by
      intro j hj1 hj2
      have : j = 1 := by omega
      rw [this]
      rfl)]
  rw [aws_sleeps (callAttempt "Set temperature" (fun k => k == 2)) (fun _ => 0)
    ⟨3, 30000⟩ [] (fun j => by simp [callAttempt, sleepsOf]) rfl 1 1]
  rw [show List.range 1 = [0] from rfl]
  simp only [List.map_cons, List.map_nil, Nat.add_zero]
  rw [show delayFor ⟨3, 30000⟩ (fun _ => 0) 1 = 10000 by
    simp only [delayFor, pow2, ratMin]
    norm_num]

/-- C4 amended: an out-of-range SetTemperature(n) is rejected
immediately - the handler makes zero remote calls, no retry sleeps, and
exactly one validation Feedback, whose message reports the permitted
range [minTemp, maxTemp] (both bounds, not specifically the violated
one). -/
theorem c4_validation_reject :
    ∀ (minT maxT : Int) (ctx : RetryCtx) (n : Int) (o : Nat → Bool)
      (jit : Nat → Rat), n < minT ∨ n > maxT →
      setTemperatureHandler minT maxT ctx n o jit =
        [HEv.fb ("Error: " ++ tempRangeMsg minT maxT)] ∧
      startsOf (setTemperatureHandler minT maxT ctx n o jit) = 0 ∧
      sleepsOf (setTemperatureHandler minT maxT ctx n o jit) = [] ∧
      fbCount (setTemperatureHandler minT maxT ctx n o jit) = 1 := by
  intro minT maxT ctx n o jit h
  have he : setTemperatureHandler minT maxT ctx n o jit =
      [HEv.fb ("Error: " ++ tempRangeMsg minT maxT)] := by
    simp only [setTemperatureHandler]
    rw [if_pos h]
  refine ⟨he, ?_, ?_, ?_⟩ <;> rw [he] <;> rfl

/-- C4 witness: SetTemperature(5) with bounds [16, 30] is rejected with
the single range-violation feedback and no remote activity. -/
theorem c4_witness :
    setTemperatureHandler 16 30 ⟨3, 2000⟩ 5 (fun _ => true) (fun _ => 0) =
        [HEv.fb ("Error: " ++ tempRangeMsg 16 30)] ∧
      startsOf (setTemperatureHandler 16 30 ⟨3, 2000⟩ 5 (fun _ => true)
        (fun _ => 0)) = 0 ∧
      sleepsOf (setTemperatureHandler 16 30 ⟨3, 2000⟩ 5 (fun _ => true)
        (fun _ => 0)) = [] ∧
      fbCount (setTemperatureHandler 16 30 ⟨3, 2000⟩ 5 (fun _ => true)
        (fun _ => 0)) = 1 :=
  c4_validation_reject 16 30 ⟨3, 2000⟩ 5 (fun _ => true) (fun _ => 0)
    (Or.inl (by norm_num))

/-- C4 counterexample: a below-minimum temperature (5) and an
above-maximum temperature (31) produce exactly the same handler trace,
so the validation Feedback does not report which specific bound was
violated, only the permitted range. -/
theorem c4_counterexample :
    setTemperatureHandler 16 30 ⟨3, 2000⟩ 5 (fun _ => true) (fun _ => 0) =
        setTemperatureHandler 16 30 ⟨3, 2000⟩ 31 (fun _ => true) (fun _ => 0) ∧
      ((5 : Int) < 16 ∧ ¬ ((31 : Int) < 16)) ∧
      ((31 : Int) > 30 ∧ ¬ ((5 : Int) > 30)) := by
  refine ⟨?_, by norm_num, by norm_num⟩
  simp only [setTemperatureHandler]
  rw [if_pos (by norm_num : (5 : Int) < 16 ∨ (5 : Int) > 30),
    if_pos (by norm_num : (31 : Int) < 16 ∨ (31 : Int) > 30)]

/-- C5: every completed Command triggers exactly one Feedback call - the
setTemperature handler (validation rejection, retry exhaustion or
success), the toggle handler and the voiceStatus handler each make
exactly one feedback call per run, for every outcome pattern, provided
maxRetries is at least 1 (as configuration validation guarantees). -/
theorem c5_one_feedback_per_command :
    ∀ ctx : RetryCtx, 1 ≤ ctx.maxRetries →
    ∀ (minT maxT n : Int) (o so ro : Nat → Bool) (jit : Nat → Rat)
      (newState : Bool) (tT rT : Int),
      fbCount (setTemperatureHandler minT maxT ctx n o jit) = 1 ∧
      fbCount (toggleHandler ctx o jit newState) = 1 ∧
      fbCount (voiceStatusHandler ctx so ro jit tT rT) = 1 := by
  intro ctx hmax minT maxT n o so ro jit newState tT rT
  refine ⟨?_, ?_, ?_⟩
  · by_cases h : n < minT ∨ n > maxT
    · simp only [setTemperatureHandler]
      rw [if_pos h]
      rfl
    · simp only [setTemperatureHandler]
      rw [if_neg h]
      exact fbCount_retry_handler (callAttempt "setTemperature" o) o jit ctx
        "Set temperature" _ hmax (fun j => by simp [callAttempt, fbMsgs])
  · simp only [toggleHandler]
    exact fbCount_retry_handler (callAttempt "togglePower" o) o jit ctx
      "Toggle power" _ hmax (fun j => by simp [callAttempt, fbMsgs])
  · simp only [voiceStatusHandler, voiceStatusRetry]
    exact fbCount_retry_handler (statusAttempt so ro) (fun k => so k && ro k)
      jit ctx "Get status" _ hmax (fun j => by simp [statusAttempt, fbMsgs])

/-- C5 witness: with maxRetries 3, an always-failing setTemperature run,
an immediately-successful toggle and a voiceStatus whose room read always
fails each produce exactly one feedback call. -/
theorem c5_witness :
    fbCount (setTemperatureHandler 16 30 ⟨3, 2000⟩ 25 (fun _ => false)
        (fun _ => 0)) = 1 ∧
      fbCount (toggleHandler ⟨3, 2000⟩ (fun _ => true) (fun _ => 0) true) = 1 ∧
      fbCount (voiceStatusHandler ⟨3, 2000⟩ (fun _ => true) (fun _ => false)
        (fun _ => 0) 24 22) = 1 :=
  c5_one_feedback_per_command ⟨3, 2000⟩ (by decide) 16 30 25 (fun _ => false)
    (fun _ => true) (fun _ => false) (fun _ => 0) true 24 22

/-- Two predicates that agree on every per-attempt trace and on sleeps
and feedback count equally over the whole retry run. -/
lemma withRetryGo_countP_eq (atr : Nat → List HEv) (o : Nat → Bool)
    (jit : Nat → Rat) (ctx : RetryCtx) (nm : String) (p q : HEv → Bool)
    (hatr : ∀ j, (atr j).countP p = (atr j).countP q)
    (hs : ∀ d, p (HEv.sleep d) = q (HEv.sleep d))
    (hf : ∀ m, p (HEv.fb m) = q (HEv.fb m)) :
    ∀ fuel a, ((withRetryGo atr o jit ctx nm a fuel).1).countP p =
      ((withRetryGo atr o jit ctx nm a fuel).1).countP q := by
  intro fuel
  induction fuel with
  | zero =>
    intro a
    rfl
  | succ fuel ih =>
    intro a
    simp only [withRetryGo]
    by_cases hoa : o a = true
    · rw [if_pos hoa]
      exact hatr a
    · have hoa2 : o a = false := by simpa using hoa
      by_cases ham : a = ctx.maxRetries
      · rw [if_neg (by simp [hoa2]), if_pos ham]
        simp [List.countP_append, List.countP_cons, hatr, hf]
      · rw [if_neg (by simp [hoa2]), if_neg ham]
        simp [List.countP_append, List.countP_cons, hatr, hs, ih]

/-- A predicate matched at least once per attempt is matched at least
once by the whole retry run (at least one attempt always runs). -/
lemma withRetryGo_countP_ge (atr : Nat → List HEv) (o : Nat → Bool)
    (jit : Nat → Rat) (ctx : RetryCtx) (nm : String) (p : HEv → Bool)
    (hatr : ∀ j, 1 ≤ (atr j).countP p) :
    ∀ fuel a, 1 ≤ fuel →
      1 ≤ ((withRetryGo atr o jit ctx nm a fuel).1).countP p := by
  intro fuel
  cases fuel with
  | zero =>
    intro a h
    omega
  | succ fuel =>
    intro a _
    simp only [withRetryGo]
    by_cases hoa : o a = true
    · rw [if_pos hoa]
      exact hatr a
    · have hoa2 : o a = false := by simpa using hoa
      by_cases ham : a = ctx.maxRetries
      · rw [if_neg (by simp [hoa2]), if_pos ham]
        simp only [List.countP_append]
        have := hatr a
        omega
      · rw [if_neg (by simp [hoa2]), if_neg ham]
        simp only [List.countP_append]
        have := hatr a
        omega

/-- C8: the voiceStatus compound Action dispatches the state read and
the room-temperature read together on every attempt (equal start counts,
at least one of each), succeeds iff both reads succeed on some attempt,
announces both values together exactly when the compound succeeded, and
on failure of either read produces the single combined failure message -
never a partial announcement. -/
theorem c8_voicestatus_join :
    ∀ (ctx : RetryCtx) (so ro : Nat → Bool) (jit : Nat → Rat) (tT rT : Int),
      1 ≤ ctx.maxRetries →
      startCount "getCurrentState" (voiceStatusHandler ctx so ro jit tT rT) =
        startCount "getRoomTemperature"
          (voiceStatusHandler ctx so ro jit tT rT) ∧
      1 ≤ startCount "getCurrentState"
        (voiceStatusHandler ctx so ro jit tT rT) ∧
      ((voiceStatusRetry ctx so ro jit).2 = true ↔
        ∃ k, 1 ≤ k ∧ k ≤ ctx.maxRetries ∧ (so k && ro k) = true) ∧
      ((voiceStatusRetry ctx so ro jit).2 = true →
        fbMsgs (voiceStatusHandler ctx so ro jit tT rT) = [statusMsg tT rT]) ∧
      ((voiceStatusRetry ctx so ro jit).2 = false →
        fbMsgs (voiceStatusHandler ctx so ro jit tT rT) =
          ["Error: Get status failed"]) ∧
      (∀ m ∈ fbMsgs (voiceStatusHandler ctx so ro jit tT rT),
        m = statusMsg tT rT ∨ m = "Error: Get status failed") := by
  intro ctx so ro jit tT rT hmax
  have hfb := withRetryT_fb (statusAttempt so ro) (fun k => so k && ro k) jit
    ctx "Get status" hmax (fun j => by simp [statusAttempt, fbMsgs])
  have hmsgs : ∀ b, (voiceStatusRetry ctx so ro jit).2 = b →
      fbMsgs (voiceStatusHandler ctx so ro jit tT rT) =
        (if b then [statusMsg tT rT] else ["Error: Get status failed"]) := by
    intro b hb
    simp only [voiceStatusRetry] at hb
    simp only [voiceStatusHandler, voiceStatusRetry, fbMsgs_append, hb]
    rw [hb] at hfb
    cases b
    · simp only [Bool.false_eq_true, if_false] at hfb ⊢
      rw [hfb]
      rfl
    · simp only [if_true] at hfb ⊢
      rw [hfb]
      rfl
  refine ⟨?_, ?_,
    withRetryT_result (statusAttempt so ro) (fun k => so k && ro k) jit ctx
      "Get status", fun h => by rw [hmsgs true h]; rfl,
    fun h => by rw [hmsgs false h]; rfl, ?_⟩
  · simp only [voiceStatusHandler, voiceStatusRetry, startCount,
      List.countP_append]
    have he := withRetryGo_countP_eq (statusAttempt so ro)
      (fun k => so k && ro k) jit ctx "Get status"
      (fun e => e = HEv.callStart "getCurrentState")
      (fun e => e = HEv.callStart "getRoomTemperature")
      (fun j => by simp +decide [statusAttempt, List.countP_cons])
      (fun d => by simp) (fun m => by simp) ctx.maxRetries 1
    simp only [withRetryT]
    rw [he]
    congr 1
    split <;> simp [List.countP_cons]
  · simp only [voiceStatusHandler, voiceStatusRetry, startCount,
      List.countP_append, withRetryT]
    have hge := withRetryGo_countP_ge (statusAttempt so ro)
      (fun k => so k && ro k) jit ctx "Get status"
      (fun e => e = HEv.callStart "getCurrentState")
      (fun j => by simp +decide [statusAttempt, List.countP_cons])
      ctx.maxRetries 1 hmax
    omega
  · intro m hm
    cases hres : (voiceStatusRetry ctx so ro jit).2
    · rw [hmsgs false hres] at hm
      simp only [Bool.false_eq_true, if_false, List.mem_singleton] at hm
      exact Or.inr hm
    · rw [hmsgs true hres] at hm
      simp only [if_true, List.mem_singleton] at hm
      exact Or.inl hm

/-- C8 witness: with the room read always failing and the state read
always succeeding, the compound fails as one unit: no success
announcement, a single combined failure feedback, both reads dispatched
equally often. -/
theorem c8_witness :
    startCount "getCurrentState" (voiceStatusHandler ⟨3, 2000⟩ (fun _ => true)
        (fun _ => false) (fun _ => 0) 24 22) =
      startCount "getRoomTemperature" (voiceStatusHandler ⟨3, 2000⟩
        (fun _ => true) (fun _ => false) (fun _ => 0) 24 22) ∧
    1 ≤ startCount "getCurrentState" (voiceStatusHandler ⟨3, 2000⟩
      (fun _ => true) (fun _ => false) (fun _ => 0) 24 22) ∧
    ((voiceStatusRetry ⟨3, 2000⟩ (fun _ => true) (fun _ => false)
        (fun _ => 0)).2 = true ↔
      ∃ k, 1 ≤ k ∧ k ≤ (⟨3, 2000⟩ : RetryCtx).maxRetries ∧
        ((fun _ : Nat => true) k && (fun _ : Nat => false) k) = true) ∧
    ((voiceStatusRetry ⟨3, 2000⟩ (fun _ => true) (fun _ => false)
        (fun _ => 0)).2 = true →
      fbMsgs (voiceStatusHandler ⟨3, 2000⟩ (fun _ => true) (fun _ => false)
        (fun _ => 0) 24 22) = [statusMsg 24 22]) ∧
    ((voiceStatusRetry ⟨3, 2000⟩ (fun _ => true) (fun _ => false)
        (fun _ => 0)).2 = false →
      fbMsgs (voiceStatusHandler ⟨3, 2000⟩ (fun _ => true) (fun _ => false)
        (fun _ => 0) 24 22) = ["Error: Get status failed"]) ∧
    (∀ m ∈ fbMsgs (voiceStatusHandler ⟨3, 2000⟩ (fun _ => true)
        (fun _ => false) (fun _ => 0) 24 22),
      m = statusMsg 24 22 ∨ m = "Error: Get status failed") :=
  c8_voicestatus_join ⟨3, 2000⟩ (fun _ => true) (fun _ => false) (fun _ => 0)
    24 22 (by decide)

/-
C2 machinery - interleaving of orchestrator handlers on the Node event
loop.  The orchestrator registers each handler with
keyboardListener.on(name, async () => ...) (part_003 lines 176, 192,
218); EventEmitter.emit invokes a listener synchronously, so the async
handler body starts running as soon as the decoder emits, whether or not
an earlier handler is still awaiting.  There is no queue or mutex in the
source.  A handler suspends at each await: after dispatching a remote
call (callStart, awaiting the response), during a backoff sleep, and
during a feedback announcement; the continuation after a response
(callEnd) runs synchronously up to the next await.  An observed
execution is a tagged merge of the two handler traces in which control
passes between tasks only at such suspension points.
-/

/-- Whether a handler suspends right after this event, allowing another
task (or a newly decoded Command) to run before its next event. -/
def canYield : HEv → Bool
  | HEv.callStart _ => true
  | HEv.sleep _ => true
  | HEv.fb _ => true
  | HEv.callEnd _ _ => false

/-- The events of one task within a tagged observation. -/
def projTask (i : Bool) (obs : List (Bool × HEv)) : List HEv :=
  obs.filterMap (fun p => if p.1 = i then some p.2 else none)

/-- Adjacent events belong to the same task unless the earlier event is
a suspension point. -/
def yieldChainB : List (Bool × HEv) → Bool
  | [] => true
  | [_] => true
  | p :: q :: rest =>
    (decide (p.1 = q.1) || canYield p.2) && yieldChainB (q :: rest)

/-- A valid Node interleaving of handler traces tA (tag false) and tB
(tag true): the tagged observation projects to exactly the two traces,
and control changes task only after an event at which the running
handler suspends. -/
def IsNodeInterleaving (tA tB : List HEv) (obs : List (Bool × HEv)) : Prop :=
  projTask false obs = tA ∧ projTask true obs = tB ∧ yieldChainB obs = true

/-- The number of remote calls in flight after a prefix: dispatched and
not yet completed. -/
def openCalls (l : List (Bool × HEv)) : Int :=
  (l.countP (fun p => match p.2 with
    | HEv.callStart _ => true
    | _ => false) : Int) -
  (l.countP (fun p => match p.2 with
    | HEv.callEnd _ _ => true
    | _ => false) : Int)

/-- At most one remote call is in flight at every point of the
observation. -/
def maxOneInFlightB (obs : List (Bool × HEv)) : Bool :=
  (List.range (obs.length + 1)).all
    (fun n => decide (openCalls (obs.take n) ≤ 1))

/-- The second Command's processing begins before the first Command's
processing has completed: some first-task event follows a second-task
event. -/
def interleavedB (obs : List (Bool × HEv)) : Bool :=
  (obs.dropWhile (fun p => p.1 = false)).any (fun p => p.1 = false)

/-- First Command of the scenario: SetTemperature(25) with bounds
[16, 30], failing on remote attempt 1 and succeeding on attempt 2, no
jitter. -/
def c2taskA : List HEv :=
  setTemperatureHandler 16 30 ⟨3, 2000⟩ 25 (fun k => k == 2) (fun _ => 0)

/-- Second Command of the scenario: a toggle that succeeds on its first
attempt, turning the AC on. -/
def c2taskB : List HEv :=
  toggleHandler ⟨3, 2000⟩ (fun _ => true) (fun _ => 0) true

lemma c2taskA_eq : c2taskA =
    [HEv.callStart "setTemperature", HEv.callEnd "setTemperature" false,
     HEv.sleep 2000, HEv.callStart "setTemperature",
     HEv.callEnd "setTemperature" true,
     HEv.fb "Temperature set to 25 degrees"] := by
  simp only [c2taskA, setTemperatureHandler]
  rw [if_neg (by norm_num : ¬ ((25 : Int) < 16 ∨ (25 : Int) > 30))]
  rw [withRetryT_success (callAttempt "setTemperature" (fun k => k == 2))
    (fun k => k == 2) (fun _ => 0) ⟨3, 2000⟩ "Set temperature" 2 (by omega)
    (by decide) rfl
    (by
      intro j hj1 hj2
      have : j = 1 := by omega
      rw [this]
      rfl)]
  simp only [aws, callAttempt]
  rw [show delayFor ⟨3, 2000⟩ (fun _ => 0) 1 = 2000 by
    simp only [delayFor, pow2, ratMin]
    norm_num]
  rfl

lemma c2taskB_eq : c2taskB =
    [HEv.callStart "togglePower", HEv.callEnd "togglePower" true,
     HEv.fb "AC turned on"] := by
  simp only [c2taskB, toggleHandler]
  rw [withRetryT_success (callAttempt "togglePower" (fun _ => true))
    (fun _ => true) (fun _ => 0) ⟨3, 2000⟩ "Toggle power" 1 (by omega)
    (by decide) rfl (by intro j hj1 hj2; omega)]
  rfl

/-- The observed execution: the toggle arrives during the
setTemperature retry sleep, its handler starts immediately (switch at
the sleep suspension), dispatches its mutation, and while it awaits the
response the setTemperature timer fires and re-dispatches - two remote
mutations in flight.  Every task switch in this observation happens
right after a callStart, a sleep or a feedback call, i.e. at a real
await of the source handlers. -/
def c2obs : List (Bool × HEv) :=
  [(false, HEv.callStart "setTemperature"),
   (false, HEv.callEnd "setTemperature" false),
   (false, HEv.sleep 2000),
   (true, HEv.callStart "togglePower"),
   (false, HEv.callStart "setTemperature"),
   (false, HEv.callEnd "setTemperature" true),
   (false, HEv.fb "Temperature set to 25 degrees"),
   (true, HEv.callEnd "togglePower" true),
   (true, HEv.fb "AC turned on")]

lemma projTask_length (obs : List (Bool × HEv)) :
    (projTask false obs).length + (projTask true obs).length = obs.length := by
  induction obs with
  | nil => rfl
  | cons p l ih =>
    obtain ⟨b, e⟩ := p
    cases b <;>
      simp only [projTask, List.filterMap_cons] at ih ⊢ <;>
      simp <;>
      omega

lemma c2_interleaving_valid : IsNodeInterleaving c2taskA c2taskB c2obs :=
  ⟨by rw [c2taskA_eq]; rfl, by rw [c2taskB_eq]; rfl, by decide⟩

/-- C2 counterexample: a Node-valid interleaving of two real handler
traces (a SetTemperature retried once and a toggle arriving during the
retry sleep) in which two remote mutations are simultaneously in flight
and the toggle is processed before the SetTemperature completes - so the
claim that Commands are processed strictly serially with at most one
in-flight mutation is false for the event-handler orchestrator. -/
theorem c2_counterexample :
    IsNodeInterleaving c2taskA c2taskB c2obs ∧
    maxOneInFlightB c2obs = false ∧
    interleavedB c2obs = true ∧
    ¬ (∀ obs, IsNodeInterleaving c2taskA c2taskB obs →
        maxOneInFlightB obs = true ∧ interleavedB obs = false) := by
  have hI := c2_interleaving_valid
  have hM : maxOneInFlightB c2obs = false := by decide
  refine ⟨hI, hM, by decide, fun h => ?_⟩
  have hc := h c2obs hI
  rw [hM] at hc
  exact Bool.false_ne_true hc.1

/-- C2 amended: the orchestrator starts a Command's handler as soon as
it is decoded, even while an earlier Command's retries are pending; no
Command is dropped (every valid interleaving contains exactly the events
of both handlers), but handlers interleave at await points, and there is
a Node-valid interleaving of a retried SetTemperature with a toggle in
which the new Command begins before the previous one completes and two
remote mutations are in flight simultaneously. -/
theorem c2_event_handlers_interleave :
    (∀ (tA tB : List HEv) (obs : List (Bool × HEv)),
      IsNodeInterleaving tA tB obs → obs.length = tA.length + tB.length) ∧
    (∃ obs, IsNodeInterleaving c2taskA c2taskB obs ∧
      maxOneInFlightB obs = false ∧ interleavedB obs = true) := by
  constructor
  · intro tA tB obs hI
    obtain ⟨h1, h2, -⟩ := hI
    rw [← h1, ← h2, projTask_length]
  · exact ⟨c2obs, c2_interleaving_valid, by decide, by decide⟩

/-- C2 witness: the exhibited observation contains exactly the events of
both handler traces - nothing is dropped. -/
theorem c2_witness :
    c2obs.length = c2taskA.length + c2taskB.length :=
  c2_event_handlers_interleave.1 c2taskA c2taskB c2obs c2_interleaving_valid

end Sensibo
